import Mathlib

/-!
Verification of `src/bindings/c/libjsonnet_test_file.c`, a small C harness that
links against the libjsonnet engine: it creates a VM handle, registers one
native callback (`nativeAdd`), evaluates a file, prints the result or the
diagnostic, and releases resources.

The engine itself is external to the repository slice, so it is modelled
abstractly:
  * the engine's value heap (`VMHeap`) is a list of values; opaque value
    handles are indices into it; `jsonnet_json_make_number` allocates by
    appending, returning the fresh index (this captures "newly constructed
    handle" and "exactly one allocation");
  * C `double` payloads are modelled as `Rat` (the claims under study only
    concern which sum is formed and which statuses are checked, not IEEE
    rounding);
  * the engine's answer to `jsonnet_evaluate_file` is an abstract
    `EngineResult` (output buffer contents plus the error flag), universally
    quantified in the theorems;
  * `main` is embedded as a function from the argument list (argv without the
    program name; `argc != 2` in C is `args.length != 1` here) and the engine
    result to the trace of host/engine interaction events, the exit code, and
    (derived from the trace) the bytes written to stdout and stderr.

The C callback declares `double a; double b;` uninitialized and ignores the
return status of `jsonnet_json_extract_number`; the unspecified value each
local holds when extraction fails is modelled by the explicit parameters
`junk0`, `junk1`, universally quantified.
-/

/-- A runtime value owned by the engine: a number or anything non-numeric. -/
inductive JVal where
  | num (x : Rat)
  | other
deriving DecidableEq

/-- The engine's value heap; an opaque `JsonnetJsonValue*` handle is an index
into `vals`. -/
structure VMHeap where
  vals : List JVal
deriving DecidableEq

/-- Engine accessor `jsonnet_json_extract_number`: yields the number carried
by the handle, or `none` (a zero return status in C) when the handle is not
numeric or dangling. -/
def jsonnet_json_extract_number (h : VMHeap) (v : Nat) : Option Rat :=
  match h.vals.get? v with
  | some (JVal.num x) => some x
  | _ => none

/-- Engine constructor `jsonnet_json_make_number`: allocates a fresh numeric
value handle, returning the extended heap and the new handle. -/
def jsonnet_json_make_number (h : VMHeap) (x : Rat) : VMHeap × Nat :=
  ({ vals := h.vals ++ [JVal.num x] }, h.vals.length)

/-- Result of one invocation of the native callback: the heap after the call,
the returned value handle, and the `*success` out-flag. -/
structure NativeAddResult where
  heap : VMHeap
  ret : Nat
  success : Bool
deriving DecidableEq

/-- Embedding of `native_add` from `libjsonnet_test_file.c`: extracts a number
from each of the two argument handles (ignoring the accessor's return status;
`junk0`/`junk1` are the unspecified values of the uninitialized C locals used
when extraction fails), sets `*success = 1`, and returns a newly made numeric
handle carrying the sum. -/
def native_add (h : VMHeap) (arg0 arg1 : Nat) (junk0 junk1 : Rat) : NativeAddResult :=
  let a := (jsonnet_json_extract_number h arg0).getD junk0
  let b := (jsonnet_json_extract_number h arg1).getD junk1
  let mk := jsonnet_json_make_number h (a + b)
  { heap := mk.1, ret := mk.2, success := true }

/-- One host/engine interaction event of `main`, in program order. -/
inductive Event where
  | makeVM
  | mallocCtx
  | registerCallback (name : String) (params : List (Option String))
  | evaluateFile (path : String)
  | writeStdout (s : String)
  | writeStderr (s : String)
  | reallocOutput
  | freeCtx
  | destroyVM
deriving DecidableEq

/-- What the external engine reports back from `jsonnet_evaluate_file`: the
output buffer contents and the error flag. -/
structure EngineResult where
  output : String
  error : Bool
deriving DecidableEq

/-- Result of a run of the host program: the event trace and the exit code. -/
structure RunResult where
  events : List Event
  exitCode : Nat
deriving DecidableEq

def EXIT_SUCCESS : Nat := 0

def EXIT_FAILURE : Nat := 1

/-- The usage line printed on a wrong argument count. -/
def usage : String := "libjsonnet_test_file <file>\n"

/-- Embedding of the C `main` from `libjsonnet_test_file.c` (named `mainC` since Lean reserves `main` for entry points). `args` is `argv`
without the program name (so `argc != 2` becomes `args` not being a single
path); `ev` is the engine's response to `jsonnet_evaluate_file`. -/
def mainC (args : List String) (ev : EngineResult) : RunResult :=
  match args with
  | [file] =>
    let pre : List Event :=
      [Event.makeVM, Event.mallocCtx,
       Event.registerCallback "nativeAdd" [some "a", some "b", none],
       Event.evaluateFile file]
    if ev.error then
      { events := pre ++ [Event.writeStderr ev.output, Event.reallocOutput, Event.destroyVM],
        exitCode := EXIT_FAILURE }
    else
      { events := pre ++ [Event.writeStdout ev.output, Event.reallocOutput,
                          Event.freeCtx, Event.destroyVM],
        exitCode := EXIT_SUCCESS }
  | _ => { events := [Event.writeStderr usage], exitCode := EXIT_FAILURE }

/-- Everything a run writes to standard output, in order. -/
def stdoutOf : List Event → String
  | [] => ""
  | Event.writeStdout s :: es => s ++ stdoutOf es
  | _ :: es => stdoutOf es

/-- Everything a run writes to standard error, in order. -/
def stderrOf : List Event → String
  | [] => ""
  | Event.writeStderr s :: es => s ++ stderrOf es
  | _ :: es => stderrOf es

def isMakeVM : Event → Bool
  | Event.makeVM => true
  | _ => false

def isDestroyVM : Event → Bool
  | Event.destroyVM => true
  | _ => false

def isFreeCtx : Event → Bool
  | Event.freeCtx => true
  | _ => false

def isReallocOutput : Event → Bool
  | Event.reallocOutput => true
  | _ => false

def isEvaluateFile : Event → Bool
  | Event.evaluateFile _ => true
  | _ => false

def isRegisterCallback : Event → Bool
  | Event.registerCallback _ _ => true
  | _ => false

/-- Number of events of a given kind in a trace. -/
def countEv (p : Event → Bool) (es : List Event) : Nat :=
  es.countP p

/-- `precedesB p q es` holds when an event satisfying `p` occurs in `es` and
the first such occurrence is strictly before the first occurrence of an event
satisfying `q`. -/
def precedesB (p q : Event → Bool) (es : List Event) : Bool :=
  match es.findIdx? p, es.findIdx? q with
  | some i, some j => decide (i < j)
  | _, _ => false

theorem list_get_append_len {α : Type} (l : List α) (x : α) :
    (l ++ [x]).get? l.length = some x := by
  induction l with
  | nil => rfl
  | cons a t ih => exact ih

theorem list_get_append_lt {α : Type} (l l2 : List α) (n : Nat) (hn : n < l.length) :
    (l ++ l2).get? n = l.get? n := by
  induction l generalizing n with
  | nil => exact absurd hn (Nat.not_lt_zero n)
  | cons a t ih =>
    cases n with
    | zero => rfl
    | succ m => exact ih m (Nat.lt_of_succ_lt_succ hn)

/-- C1: for every invocation of `native_add` whose two argument handles carry
numbers `a` and `b`, the callback returns a newly constructed numeric handle
(the fresh index `h.vals.length`) whose extracted number is `a + b`, and sets
the success out-flag to true. -/
theorem native_add_correct (h : VMHeap) (a0 a1 : Nat) (j0 j1 a b : Rat)
    (h0 : jsonnet_json_extract_number h a0 = some a)
    (h1 : jsonnet_json_extract_number h a1 = some b) :
    jsonnet_json_extract_number (native_add h a0 a1 j0 j1).heap
        (native_add h a0 a1 j0 j1).ret = some (a + b) ∧
    (native_add h a0 a1 j0 j1).success = true ∧
    (native_add h a0 a1 j0 j1).ret = h.vals.length := by
  refine ⟨?_, rfl, rfl⟩
  show jsonnet_json_extract_number
      ⟨h.vals ++ [JVal.num ((jsonnet_json_extract_number h a0).getD j0 +
                            (jsonnet_json_extract_number h a1).getD j1)]⟩
      h.vals.length = some (a + b)
  rw [h0, h1]
  show (match (h.vals ++ [JVal.num (a + b)]).get? h.vals.length with
        | some (JVal.num x) => some x
        | _ => none) = some (a + b)
  rw [list_get_append_len]

theorem native_add_correct_witness :
    jsonnet_json_extract_number
        (native_add ⟨[JVal.num 2, JVal.num 3]⟩ 0 1 0 0).heap
        (native_add ⟨[JVal.num 2, JVal.num 3]⟩ 0 1 0 0).ret = some 5 ∧
    (native_add ⟨[JVal.num 2, JVal.num 3]⟩ 0 1 0 0).success = true := by
  have h := native_add_correct ⟨[JVal.num 2, JVal.num 3]⟩ 0 1 0 0 2 3 rfl rfl
  exact ⟨by rw [h.1]; norm_num, h.2.1⟩

/-- C6: `native_add` ignores the return status of the numeric extraction for
both arguments: on every input (numeric or not) it sets the success flag to
true and returns the sum of the extracted-or-unspecified values, so a failed
extraction silently feeds the unspecified local (`junk0`/`junk1`) into the
addition. -/
theorem native_add_ignores_status (h : VMHeap) (a0 a1 : Nat) (j0 j1 : Rat) :
    (native_add h a0 a1 j0 j1).success = true ∧
    jsonnet_json_extract_number (native_add h a0 a1 j0 j1).heap
        (native_add h a0 a1 j0 j1).ret =
      some ((jsonnet_json_extract_number h a0).getD j0 +
            (jsonnet_json_extract_number h a1).getD j1) := by
  refine ⟨rfl, ?_⟩
  show (match (h.vals ++ [JVal.num ((jsonnet_json_extract_number h a0).getD j0 +
                                    (jsonnet_json_extract_number h a1).getD j1)]).get?
              h.vals.length with
        | some (JVal.num x) => some x
        | _ => none) =
      some ((jsonnet_json_extract_number h a0).getD j0 +
            (jsonnet_json_extract_number h a1).getD j1)
  rw [list_get_append_len]

theorem native_add_ignores_status_witness :
    (native_add ⟨[JVal.other, JVal.num 3]⟩ 0 1 7 0).success = true ∧
    jsonnet_json_extract_number
        (native_add ⟨[JVal.other, JVal.num 3]⟩ 0 1 7 0).heap
        (native_add ⟨[JVal.other, JVal.num 3]⟩ 0 1 7 0).ret = some 10 := by
  have h := native_add_ignores_status ⟨[JVal.other, JVal.num 3]⟩ 0 1 7 0
  exact ⟨h.1, by rw [h.2]; norm_num [jsonnet_json_extract_number]⟩

/-- C9: an invocation of `native_add` leaves every existing value handle
unchanged, grows the heap by exactly one value (the single allocation through
`jsonnet_json_make_number`), and returns the fresh handle, which is distinct
from both input handles, so no reference to the inputs is retained. -/
theorem native_add_frame (h : VMHeap) (a0 a1 : Nat) (j0 j1 : Rat)
    (h0 : a0 < h.vals.length) (h1 : a1 < h.vals.length) :
    (native_add h a0 a1 j0 j1).heap.vals.length = h.vals.length + 1 ∧
    (∀ v, v < h.vals.length →
      (native_add h a0 a1 j0 j1).heap.vals.get? v = h.vals.get? v) ∧
    (native_add h a0 a1 j0 j1).ret = h.vals.length ∧
    (native_add h a0 a1 j0 j1).ret ≠ a0 ∧
    (native_add h a0 a1 j0 j1).ret ≠ a1 := by
  refine ⟨?_, ?_, rfl, ?_, ?_⟩
  · show (h.vals ++ [JVal.num _]).length = h.vals.length + 1
    simp
  · intro v hv
    exact list_get_append_lt h.vals _ v hv
  · exact fun he => absurd (he ▸ h0) (Nat.lt_irrefl _)
  · exact fun he => absurd (he ▸ h1) (Nat.lt_irrefl _)

theorem native_add_frame_witness :
    (native_add ⟨[JVal.num 1, JVal.num 2]⟩ 0 1 0 0).heap.vals.length = 3 ∧
    (native_add ⟨[JVal.num 1, JVal.num 2]⟩ 0 1 0 0).ret = 2 ∧
    (native_add ⟨[JVal.num 1, JVal.num 2]⟩ 0 1 0 0).heap.vals.get? 0 =
      some (JVal.num 1) := by
  have h := native_add_frame ⟨[JVal.num 1, JVal.num 2]⟩ 0 1 0 0
    (by decide) (by decide)
  exact ⟨h.1, h.2.2.1, by rw [h.2.1 0 (by decide)]; rfl⟩

theorem mainC_success_eq (f : String) (ev : EngineResult) (h : ev.error = false) :
    mainC [f] ev =
      { events := [Event.makeVM, Event.mallocCtx,
                   Event.registerCallback "nativeAdd" [some "a", some "b", none],
                   Event.evaluateFile f, Event.writeStdout ev.output,
                   Event.reallocOutput, Event.freeCtx, Event.destroyVM],
        exitCode := EXIT_SUCCESS } := by
  obtain ⟨out, err⟩ := ev
  cases err
  · rfl
  · exact Bool.noConfusion h

theorem mainC_failure_eq (f : String) (ev : EngineResult) (h : ev.error = true) :
    mainC [f] ev =
      { events := [Event.makeVM, Event.mallocCtx,
                   Event.registerCallback "nativeAdd" [some "a", some "b", none],
                   Event.evaluateFile f, Event.writeStderr ev.output,
                   Event.reallocOutput, Event.destroyVM],
        exitCode := EXIT_FAILURE } := by
  obtain ⟨out, err⟩ := ev
  cases err
  · exact Bool.noConfusion h
  · rfl

/-- C2: when exactly one file argument is given and the engine reports
success, the host writes exactly the engine's output string to stdout (and
nothing to stderr), returns the output buffer to the engine's allocator,
frees the native-callback context, destroys the VM handle, and exits 0. -/
theorem mainC_success_path (f : String) (ev : EngineResult) (h : ev.error = false) :
    (mainC [f] ev).exitCode = EXIT_SUCCESS ∧
    stdoutOf (mainC [f] ev).events = ev.output ∧
    stderrOf (mainC [f] ev).events = "" ∧
    countEv isReallocOutput (mainC [f] ev).events = 1 ∧
    Event.freeCtx ∈ (mainC [f] ev).events ∧
    Event.destroyVM ∈ (mainC [f] ev).events := by
  rw [mainC_success_eq f ev h]
  refine ⟨rfl, ?_, rfl, rfl, ?_, ?_⟩
  · show ev.output ++ "" = ev.output
    exact String.append_empty ev.output
  · simp
  · simp

theorem mainC_success_path_witness :
    (mainC ["f"] { output := "5", error := false }).exitCode = 0 ∧
    stdoutOf (mainC ["f"] { output := "5", error := false }).events = "5" := by
  have h := mainC_success_path "f" { output := "5", error := false } rfl
  exact ⟨h.1, h.2.1⟩

/-- C3: when exactly one file argument is given and the engine reports
failure, the host writes exactly the engine-supplied diagnostic to stderr,
returns the output buffer to the engine's allocator, destroys the VM handle,
exits with the non-zero failure code, and calls the evaluator exactly once
(nothing is retried). -/
theorem mainC_failure_path (f : String) (ev : EngineResult) (h : ev.error = true) :
    (mainC [f] ev).exitCode = EXIT_FAILURE ∧
    (mainC [f] ev).exitCode ≠ 0 ∧
    stderrOf (mainC [f] ev).events = ev.output ∧
    stdoutOf (mainC [f] ev).events = "" ∧
    countEv isReallocOutput (mainC [f] ev).events = 1 ∧
    Event.destroyVM ∈ (mainC [f] ev).events ∧
    countEv isEvaluateFile (mainC [f] ev).events = 1 := by
  rw [mainC_failure_eq f ev h]
  refine ⟨rfl, Nat.one_ne_zero, ?_, rfl, rfl, ?_, rfl⟩
  · show ev.output ++ "" = ev.output
    exact String.append_empty ev.output
  · simp

theorem mainC_failure_path_witness :
    (mainC ["f"] { output := "boom", error := true }).exitCode = 1 ∧
    stderrOf (mainC ["f"] { output := "boom", error := true }).events = "boom" := by
  have h := mainC_failure_path "f" { output := "boom", error := true } rfl
  exact ⟨h.1, h.2.2.1⟩

/-- C4: on any argument count other than exactly one file argument, the host
writes the usage line to stderr, exits with the non-zero failure code, and
performs no engine interaction: the trace holds no VM creation, no context
allocation and no callback registration. -/
theorem mainC_usage_error (args : List String) (ev : EngineResult)
    (h : args.length ≠ 1) :
    (mainC args ev).events = [Event.writeStderr usage] ∧
    stderrOf (mainC args ev).events = usage ∧
    (mainC args ev).exitCode = EXIT_FAILURE ∧
    (mainC args ev).exitCode ≠ 0 ∧
    countEv isMakeVM (mainC args ev).events = 0 ∧
    countEv isRegisterCallback (mainC args ev).events = 0 := by
  have he : (mainC args ev).events = [Event.writeStderr usage] ∧
      (mainC args ev).exitCode = EXIT_FAILURE := by
    match args with
    | [] => exact ⟨rfl, rfl⟩
    | [f] => exact absurd rfl h
    | a :: b :: t => exact ⟨rfl, rfl⟩
  refine ⟨he.1, ?_, he.2, ?_, ?_, ?_⟩
  · rw [he.1]
    show usage ++ "" = usage
    exact String.append_empty usage
  · rw [he.2]; decide
  · rw [he.1]; rfl
  · rw [he.1]; rfl

theorem mainC_usage_error_witness :
    (mainC [] { output := "", error := false }).exitCode = 1 ∧
    stderrOf (mainC [] { output := "", error := false }).events = usage := by
  have h := mainC_usage_error [] { output := "", error := false } (by decide)
  exact ⟨h.2.2.1, h.2.1⟩

/-- C7: on every run that reaches engine interaction (a single file
argument), and regardless of the engine's verdict, the single buffer the host
obtains from the engine's allocator is handed back by exactly one
release-buffer call: no leak, no double free, on the failure path as well. -/
theorem mainC_realloc_once (f : String) (ev : EngineResult) :
    countEv isReallocOutput (mainC [f] ev).events = 1 := by
  obtain ⟨out, err⟩ := ev
  cases err
  · rfl
  · rfl

theorem mainC_realloc_once_witness :
    countEv isReallocOutput
      (mainC ["f"] { output := "x", error := true }).events = 1 :=
  mainC_realloc_once "f" { output := "x", error := true }

/-- C8: every run that reaches engine interaction produces the strictly
linear trace create VM, allocate context, register the callback named
"nativeAdd" with parameters "a", "b" terminated by a null marker, evaluate
the file, then (branching on the error flag) write and release; the VM
handle is created exactly once and destroyed exactly once on both branches. -/
theorem mainC_linear_order (f : String) (ev : EngineResult) :
    (mainC [f] ev).events =
      [Event.makeVM, Event.mallocCtx,
       Event.registerCallback "nativeAdd" [some "a", some "b", none],
       Event.evaluateFile f] ++
      (if ev.error then
        [Event.writeStderr ev.output, Event.reallocOutput, Event.destroyVM]
       else
        [Event.writeStdout ev.output, Event.reallocOutput,
         Event.freeCtx, Event.destroyVM]) ∧
    countEv isMakeVM (mainC [f] ev).events = 1 ∧
    countEv isDestroyVM (mainC [f] ev).events = 1 := by
  obtain ⟨out, err⟩ := ev
  cases err
  · exact ⟨rfl, rfl, rfl⟩
  · exact ⟨rfl, rfl, rfl⟩

theorem mainC_linear_order_witness :
    countEv isMakeVM (mainC ["f"] { output := "5", error := false }).events = 1 ∧
    countEv isDestroyVM (mainC ["f"] { output := "5", error := false }).events = 1 := by
  have h := mainC_linear_order "f" { output := "5", error := false }
  exact ⟨h.2.1, h.2.2⟩

/-- C5, counterexample: on a concrete successful run the destroy of the VM
handle does NOT precede the free of the context record; the code frees the
context first and destroys the VM after, the opposite of the claimed order. -/
theorem ctx_free_order_cex :
    precedesB isDestroyVM isFreeCtx
        (mainC ["f"] { output := "5", error := false }).events = false ∧
    precedesB isFreeCtx isDestroyVM
        (mainC ["f"] { output := "5", error := false }).events = true := by
  exact ⟨by decide, by decide⟩

/-- C5, amended: on the success path the free of the context record precedes
the destroy of the VM handle (the code frees the context first), and the
context is freed only on the success path: the failure and usage paths never
free it. -/
theorem ctx_free_order_amended (f : String) (ev : EngineResult) :
    (ev.error = false →
      precedesB isFreeCtx isDestroyVM (mainC [f] ev).events = true) ∧
    (ev.error = true → countEv isFreeCtx (mainC [f] ev).events = 0) ∧
    countEv isFreeCtx (mainC [] ev).events = 0 := by
  obtain ⟨out, err⟩ := ev
  cases err
  · exact ⟨fun _ => rfl, fun hc => Bool.noConfusion hc, rfl⟩
  · exact ⟨fun hc => Bool.noConfusion hc, fun _ => rfl, rfl⟩

theorem ctx_free_order_amended_witness :
    precedesB isFreeCtx isDestroyVM
        (mainC ["g"] { output := "ok", error := false }).events = true ∧
    countEv isFreeCtx (mainC ["g"] { output := "no", error := true }).events = 0 := by
  exact ⟨(ctx_free_order_amended "g" { output := "ok", error := false }).1 rfl,
         (ctx_free_order_amended "g" { output := "no", error := true }).2.1 rfl⟩

/-- C10: on the evaluation-failure path the heap-allocated native-callback
context record is never freed before the process exits: the trace holds only
the stderr write, the buffer release and the VM destruction after the
evaluation, and no free of the context; the free occurs only on the success
path. -/
theorem mainC_failure_no_free (f : String) (ev : EngineResult) (h : ev.error = true) :
    countEv isFreeCtx (mainC [f] ev).events = 0 ∧
    (mainC [f] ev).events =
      [Event.makeVM, Event.mallocCtx,
       Event.registerCallback "nativeAdd" [some "a", some "b", none],
       Event.evaluateFile f, Event.writeStderr ev.output,
       Event.reallocOutput, Event.destroyVM] ∧
    countEv isReallocOutput (mainC [f] ev).events = 1 ∧
    countEv isDestroyVM (mainC [f] ev).events = 1 := by
  rw [mainC_failure_eq f ev h]
  exact ⟨rfl, rfl, rfl, rfl⟩

theorem mainC_failure_no_free_witness :
    countEv isFreeCtx (mainC ["f"] { output := "err", error := true }).events = 0 := by
  exact (mainC_failure_no_free "f" { output := "err", error := true } rfl).1
